import Mathlib

/-!
Shallow embedding of the r.trench GRASS script (src/r.trench.py) and a
verification of the specification claims about it.

Conventions used throughout:
* Python floats are modelled as rationals.
* The script is Python 2 (print statements appear in comments), whose
  round builtin rounds half away from zero; pyRound models int(round x).
* External GRASS collaborators (path sampling, raster statistics, disk
  rasterization geometry, region handling) are modelled as oracle inputs;
  the grass commands issued by main are recorded in an explicit trace so
  that ordering and presence of grid work can be stated.
-/

namespace RTrench

/-- Python 2 round builtin (round half away from zero) composed with
int(): int(round(q)). -/
def pyRound (q : ℚ) : ℤ := if 0 ≤ q then ⌊q + 1/2⌋ else -⌊-q + 1/2⌋

/-- Python range(a, b) over integers, as a list. -/
def pyRange (a b : ℤ) : List ℤ := (List.range (b - a).toNat).map (fun (i : ℕ) => a + (i : ℤ))

theorem mem_pyRange {a b k : ℤ} : k ∈ pyRange a b ↔ a ≤ k ∧ k < b := by
  unfold pyRange
  rw [List.mem_map]
  constructor
  · rintro ⟨i, hi, rfl⟩
    rw [List.mem_range] at hi
    omega
  · rintro ⟨h1, h2⟩
    refine ⟨(k - a).toNat, ?_, by omega⟩
    rw [List.mem_range]
    omega

theorem nodup_pyRange (a b : ℤ) : (pyRange a b).Nodup := by
  unfold pyRange
  apply List.Nodup.map
  · intro i j h
    exact Nat.cast_injective (add_left_cancel h)
  · exact List.nodup_range _

theorem length_pyRange (a b : ℤ) : (pyRange a b).length = (b - a).toNat := by
  rw [pyRange, List.length_map, List.length_range]

theorem pyRound_intCast (z : ℤ) : pyRound (z : ℚ) = z := by
  unfold pyRound
  have hhalf : ⌊(1 : ℚ)/2⌋ = 0 := by
    rw [Int.floor_eq_zero_iff]
    constructor <;> norm_num
  split
  · rw [Int.floor_int_add, hhalf, add_zero]
  · rw [show -(z : ℚ) = ((-z : ℤ) : ℚ) by push_cast; ring, Int.floor_int_add, hhalf, add_zero]
    ring

/-- Configuration options of the script (src/r.trench.py lines 216-229).
All values are already parsed numbers; sideRatioOpt is the supplied
sideratio option, which main reads from no code path. -/
structure Config where
  hRes : ℚ
  vRes : ℚ
  pointDist : ℚ
  endHeight : ℚ
  depth : ℚ
  startHeight : ℚ
  limitRunLayers : ℤ
  chWidth : ℚ
  chMaxWidth : ℚ
  sideRatioOpt : ℚ
  reliefRes : ℚ
deriving DecidableEq

/-- Forced side-ratio calculation (line 227):
sideRatio = float(chMaxWidth - chWidth)/2/depth. -/
def sideRatio (cfg : Config) : ℚ := (cfg.chMaxWidth - cfg.chWidth)/2/cfg.depth

/-- Corridor maximum raised by one vertical step (lines 285-286):
maxH = float(kv[maximum]); maxH = maxH + vRes.
maxHraw is the corridor maximum returned by r.univar. -/
def maxHOf (maxHraw vRes : ℚ) : ℚ := maxHraw + vRes

/-- Number of levels (line 291):
vLevels = int(round((maxH - endHeight)/vRes)) + 2. -/
def vLevelsOf (maxHraw endHeight vRes : ℚ) : ℤ :=
  pyRound ((maxHOf maxHraw vRes - endHeight)/vRes) + 2

/-- Elevation recorded for level n (line 302):
hSeries.append(round((n-1)*vRes + endHeight)).
Note the Python round: the stored elevation is an integer value. -/
def levelElev (endHeight vRes : ℚ) (n : ℤ) : ℚ :=
  (pyRound (((n : ℚ) - 1) * vRes + endHeight) : ℚ)

/-- The hSeries list built by the loop at lines 301-302, for n in
range(1, vLevels). -/
def hSeries (vLevels : ℤ) (endHeight vRes : ℚ) : List ℚ :=
  (pyRange 1 vLevels).map (levelElev endHeight vRes)

/-- Invert slope (line 305): quo = (endHeight - startHeight)/length. -/
def quoOf (cfg : Config) (length : ℚ) : ℚ := (cfg.endHeight - cfg.startHeight)/length

/-- Design (invert) elevation of a station at along-distance d (line 313):
tmp = quo*float(aLine[4]) + startHeight. -/
def designElev (cfg : Config) (quo d : ℚ) : ℚ := quo * d + cfg.startHeight

/-- Own level of a station (line 314):
level = int(round((tmp - endHeight)/vRes + 1)). No clamping is applied. -/
def levelOf (cfg : Config) (tmp : ℚ) : ℤ :=
  pyRound ((tmp - cfg.endHeight)/cfg.vRes + 1)

/-- Buffer half-width a station contributes to level k when its own level
is level (line 319): bufferWidth = chWidth/2 + (levelUp - level)*vRes*sideRatio. -/
def bufW (cfg : Config) (level k : ℤ) : ℚ :=
  cfg.chWidth/2 + ((k : ℚ) - (level : ℚ)) * cfg.vRes * sideRatio cfg

/-- One parsed line of the v.out.ascii point file: x, y, category and
cumulative along-path distance (fields 0, 1, 2 and 4 of each row). -/
structure Row where
  x : ℚ
  y : ℚ
  cat : ℚ
  along : ℚ
deriving DecidableEq

/-- A db entry: the station row together with its buffer half-width. -/
abbrev Entry := Row × ℚ

/-- Python runtime failures the script can raise, plus the error class the
specification claims for configuration failures. -/
inductive PyErr where
  | indexError
  | keyError
  | zeroDivisionError
  | configurationError
deriving DecidableEq

/-- Python list indexing with negative-index wraparound; raises IndexError
outside [-len, len). -/
def pyListGet (l : List ℚ) (i : ℤ) : Except PyErr ℚ :=
  if h : 0 ≤ i ∧ i < (l.length : ℤ) then
    .ok (l.get ⟨i.toNat, by omega⟩)
  else if h2 : -(l.length : ℤ) ≤ i ∧ i < 0 then
    .ok (l.get ⟨(i + l.length).toNat, by omega⟩)
  else
    .error .indexError

/-- Keys present in the db dictionary after the initialisation loop at
lines 301-303: db[n] = [] for n in range(1, vLevels). -/
def dbKeys (vLevels : ℤ) : List ℤ := pyRange 1 vLevels

/-- db[k].append(e): a KeyError is raised when k is not an initialised key. -/
def dbAppend (vLevels : ℤ) (db : ℤ → List Entry) (k : ℤ) (e : Entry) :
    Except PyErr (ℤ → List Entry) :=
  if k ∈ dbKeys vLevels then
    .ok (fun j => if j = k then db j ++ [e] else db j)
  else
    .error .keyError

/-- Inner loop at lines 318-321: for levelUp in range(level+1, vLevels),
append (station, bufferWidth) when bufferWidth <= chMaxWidth/2. The code
keeps testing every remaining level even after the cap is exceeded. -/
def levelUpLoop (cfg : Config) (vLevels : ℤ) (row : Row) (level : ℤ) :
    (ℤ → List Entry) → List ℤ → Except PyErr (ℤ → List Entry)
  | db, [] => .ok db
  | db, k :: rest =>
    if bufW cfg level k ≤ cfg.chMaxWidth/2 then
      match dbAppend vLevels db k (row, bufW cfg level k) with
      | .error e => .error e
      | .ok db2 => levelUpLoop cfg vLevels row level db2 rest
    else
      levelUpLoop cfg vLevels row level db rest

/-- Body of the station loop at lines 312-321 for one station:
compute tmp and level, read hSeries[level-1] (the unused layer variable,
which can raise IndexError), append the bottom-width entry at db[level]
(which can raise KeyError) and run the level-up loop. -/
def processStation (cfg : Config) (vLevels : ℤ) (hS : List ℚ) (quo : ℚ)
    (db : ℤ → List Entry) (row : Row) : Except PyErr (ℤ → List Entry) :=
  match pyListGet hS (levelOf cfg (designElev cfg quo row.along) - 1) with
  | .error e => .error e
  | .ok _layer =>
    match dbAppend vLevels db (levelOf cfg (designElev cfg quo row.along))
        (row, cfg.chWidth/2) with
    | .error e => .error e
    | .ok db1 =>
      levelUpLoop cfg vLevels row (levelOf cfg (designElev cfg quo row.along)) db1
        (pyRange (levelOf cfg (designElev cfg quo row.along) + 1) vLevels)

/-- The whole station loop at lines 312-321 over all parsed rows. -/
def buildDb (cfg : Config) (vLevels : ℤ) (hS : List ℚ) (quo : ℚ) :
    (ℤ → List Entry) → List Row → Except PyErr (ℤ → List Entry)
  | db, [] => .ok db
  | db, row :: rest =>
    match processStation cfg vLevels hS quo db row with
    | .error e => .error e
    | .ok db' => buildDb cfg vLevels hS quo db' rest

section Envelope

variable {ι : Type}

/-- One r.mapcalc merge cell (line 359):
temp = if(isnull(F), source, if(F < source, F, source)).
A GRASS comparison against a null source yields null. -/
def mergeCell : Option ℚ → Option ℚ → Option ℚ
  | none, s => s
  | some _, none => none
  | some v, some s => some (min v s)

/-- One pass of the sweep loop body over a whole grid (lines 359-360). -/
def mergeStep (f src : ι → Option ℚ) : ι → Option ℚ :=
  fun c => mergeCell (f c) (src c)

/-- The sweep loop at lines 355-360: source starts as the terrain grid
(line 353) and each processed level grid is min-merged into it in
increasing level order. -/
def sweepGrids (t : ι → ℚ) (fs : List (ι → Option ℚ)) : ι → Option ℚ :=
  fs.foldl (fun src f => mergeStep f src) (fun c => some (t c))

/-- The final fill at line 361:
dtm = if(isnull(source), basedtm, source). -/
def excavated (t : ι → ℚ) (fs : List (ι → Option ℚ)) : ι → ℚ :=
  fun c =>
    match sweepGrids t fs c with
    | none => t c
    | some v => v

/-- A level as the envelope accumulator sees it: its constant elevation
and the plan-view coverage of its rasterized footprint. -/
structure Level (ι : Type) where
  elev : ℚ
  cover : ι → Bool

/-- The footprint grid produced for a level by the external rasterizer:
the level elevation inside the footprint, null elsewhere. -/
def gridOf (l : Level ι) : ι → Option ℚ :=
  fun c => if l.cover c then some l.elev else none

/-- Surface described by the words of the specification claim: the
elevation of the lowest-ordinal level whose footprint covers the cell, or
the terrain when none does (written from the spec for comparison). -/
def claimSurface (t : ι → ℚ) (levels : List (Level ι)) (c : ι) : ℚ :=
  match levels.find? (fun l => l.cover c) with
  | none => t c
  | some l => l.elev

/-- Disk membership used by the external v.buffer rasterization: the cell
position lies within halfwidth of the station point (squared distances,
so it stays rational). -/
def inDisk (p : ℚ × ℚ) (e : Entry) : Bool :=
  decide ((p.1 - e.1.x)^2 + (p.2 - e.1.y)^2 ≤ e.2^2)

/-- Coverage of one level footprint: the union of the stamped disks of
its db entries (lines 342-346). -/
def coverOf (entries : List Entry) (p : ℚ × ℚ) : Bool :=
  entries.any (inDisk p)

/-- Rasterized footprint grid of one level under the r.mask of the
200-unit path buffer (lines 336-337 and 343-346): the level elevation on
covered cells within distance 200 of the path, null elsewhere. The 200 is
the literal distance of the v.buffer call at line 336. -/
def footGrid (pathDist : ι → ℚ) (pos : ι → ℚ × ℚ) (entries : List Entry)
    (elev : ℚ) : ι → Option ℚ :=
  fun c => if pathDist c ≤ 200 ∧ coverOf entries (pos c) then some elev else none

/-- The ordered list of footprint grids fed to the sweep: levels n in
range(1, min(vLevels, limitRunLayers)) with a non-empty db entry list
(lines 339-346 and 355-360), stamped with hSeries[n-1]. -/
def levelGrids (cfg : Config) (db : ℤ → List Entry) (hS : List ℚ) (vLevels : ℤ)
    (pathDist : ι → ℚ) (pos : ι → ℚ × ℚ) : List (ι → Option ℚ) :=
  ((pyRange 1 (min vLevels cfg.limitRunLayers)).filter (fun n => db n ≠ [])).map
    (fun n => footGrid pathDist pos (db n) (hS.getD (n - 1).toNat 0))

/-- The excavated surface dtm produced by lines 353-361 for the whole
pipeline state. -/
def excavatedFull (cfg : Config) (db : ℤ → List Entry) (hS : List ℚ) (vLevels : ℤ)
    (pathDist : ι → ℚ) (pos : ι → ℚ × ℚ) (t : ι → ℚ) : ι → ℚ :=
  excavated t (levelGrids cfg db hS vLevels pathDist pos)

/-- The difference grid (line 372), computed under the re-applied 200-unit
path-buffer mask (line 371): basedtm - dtm inside the buffer, null outside. -/
def diffGrid (pathDist : ι → ℚ) (t exc : ι → ℚ) : ι → Option ℚ :=
  fun c => if pathDist c ≤ 200 then some (t c - exc c) else none

end Envelope

/-- The grass commands main issues, in source order. Payloads record the
arguments relevant to the claims (buffer distances, level ordinals, the
stamped elevation). -/
inductive Cmd where
  | gRegionVector
  | gRegionGrow
  | gRegionSave
  | vToPoints
  | vOutAscii
  | vBufferMax (dist : ℚ)
  | rMaskMax
  | rMapcalcMax
  | rUnivarMax
  | rMaskRemove1
  | rmTmpFiles
  | gRegionRestore1
  | gRegionRes1
  | vBuffer200 (dist : ℚ)
  | rMask200a
  | vInAscii (n : ℤ)
  | vBufferWidth (n : ℤ)
  | vDbAddcolumn (n : ℤ)
  | vDbUpdate (n : ℤ) (elev : ℚ)
  | vToRast (n : ℤ)
  | rMaskRemove2
  | gRegionRestore2
  | gRegionRes2
  | rMapcalcSource
  | rMapcalcTemp (n : ℤ)
  | gRenameSource (n : ℤ)
  | rMapcalcDtm
  | rColors
  | gRegionRelief
  | rRelief
  | gRegionRaster
  | gRegionRes3
  | rMask200b
  | rMapcalcDiff
  | rUnivarDiff
  | rMaskRemove3
  | gRegionP3
  | gRemove
deriving DecidableEq

/-- Messages main can emit to the user. grass.verbose and grass.message
calls appear with their payloads; the warning constructor models the
grass.warning channel, which main never invokes. -/
inductive LogEvent where
  | pathLength (v : ℚ)
  | profileFile
  | maxHeight (v : ℚ)
  | numLevels (v : ℤ)
  | startHeightMsg (v : ℚ)
  | endHeightMsg (v : ℚ)
  | slopeRatioMsg (v : ℚ)
  | applying (n : ℤ)
  | calcVolume
  | reportPath
  | reportM3 (v : ℚ)
  | reportTons (v : ℚ)
  | reportKt (v : ℚ)
  | reportLiebherr (v : ℚ)
  | reportVisonta (v : ℚ)
  | warning (n : ℤ)
deriving DecidableEq

/-- Whether a log event is a warning. -/
def isWarning : LogEvent → Bool
  | .warning _ => true
  | _ => false

/-- Commands issued before the point file is read back (lines 247-253). -/
def preCmds : List Cmd :=
  [.gRegionVector, .gRegionGrow, .gRegionSave, .vToPoints, .vOutAscii]

/-- Commands issued between reading the point file and the station loop
(lines 278-297): corridor buffer, corridor mask, corridor copy, corridor
statistics, mask removal and scratch-file removal. The failure of a
zero-length path happens only after all of these have run. -/
def statCmds (cfg : Config) : List Cmd :=
  preCmds ++
    [.vBufferMax (cfg.chMaxWidth/2), .rMaskMax, .rMapcalcMax, .rUnivarMax,
     .rMaskRemove1, .rmTmpFiles]

/-- Levels actually processed by the per-level loops at lines 339 and 355:
n in range(1, min(vLevels, limitRunLayers)) with a non-empty db list. -/
def processedLevels (cfg : Config) (vL : ℤ) (db : ℤ → List Entry) : List ℤ :=
  (pyRange 1 (min vL cfg.limitRunLayers)).filter (fun n => db n ≠ [])

/-- Per-level rasterization commands (lines 342-346). -/
def rasterCmds (hS : List ℚ) (processed : List ℤ) : List Cmd :=
  processed.flatMap (fun n =>
    [.vInAscii n, .vBufferWidth n, .vDbAddcolumn n,
     .vDbUpdate n (hS.getD (n - 1).toNat 0), .vToRast n])

/-- Per-level sweep commands (lines 359-360). -/
def sweepCmds (processed : List ℤ) : List Cmd :=
  processed.flatMap (fun n => [.rMapcalcTemp n, .gRenameSource n])

/-- Full command trace of a successful run (lines 247-410). -/
def okCmds (cfg : Config) (hS : List ℚ) (processed : List ℤ) : List Cmd :=
  statCmds cfg ++
    [.gRegionRestore1, .gRegionRes1, .vBuffer200 200, .rMask200a] ++
    rasterCmds hS processed ++
    [.rMaskRemove2, .gRegionRestore2, .gRegionRes2, .rMapcalcSource] ++
    sweepCmds processed ++
    [.rMapcalcDtm, .rColors, .gRegionRelief, .rRelief, .gRegionRaster,
     .gRegionRes3, .rMask200b, .rMapcalcDiff, .rUnivarDiff, .rMaskRemove3,
     .gRegionP3, .gRemove]

/-- Messages emitted up to the vLevels report (lines 264-292). -/
def headerLog (length maxH : ℚ) (vL : ℤ) : List LogEvent :=
  [.pathLength length, .profileFile, .maxHeight maxH, .numLevels vL]

/-- Messages emitted once the slope is computed (lines 307-309). -/
def slopeLog (cfg : Config) (quo : ℚ) : List LogEvent :=
  [.startHeightMsg cfg.startHeight, .endHeightMsg cfg.endHeight, .slopeRatioMsg quo]

/-- Messages of the sweep loop and the final report (lines 358, 367 and
394-406); m3 = xres*yres*sum with both region resolutions equal to hRes,
mt = m3*2.7*1000 (lines 387-392). -/
def tailLog (cfg : Config) (dsum : ℚ) (processed : List ℤ) : List LogEvent :=
  processed.map (fun n => LogEvent.applying n) ++
    [.calcVolume, .reportPath, .reportM3 (cfg.hRes * cfg.hRes * dsum),
     .reportTons (cfg.hRes * cfg.hRes * dsum * (27/10) * 1000),
     .reportKt (cfg.hRes * cfg.hRes * dsum * (27/10) * 1000 / 1000),
     .reportLiebherr (cfg.hRes * cfg.hRes * dsum * (27/10) * 1000 / 350),
     .reportVisonta (cfg.hRes * cfg.hRes * dsum * (27/10) * 1000 / 1000 / 4200)]

/-- The control flow of main (lines 247-410) as a trace: the grass
commands issued, the messages emitted, and either normal completion or
the Python exception that aborts the run. External collaborator results
enter as oracles: the parsed station rows (lines), the corridor maximum
maxHraw from r.univar, and the diff-grid sum dsum from r.univar. -/
def runMain (cfg : Config) (lines : List Row) (maxHraw dsum : ℚ) :
    List Cmd × List LogEvent × Except PyErr Unit :=
  match lines.getLast? with
  | none => (preCmds, [], .error .indexError)
  | some last =>
    if last.along = 0 then
      (statCmds cfg,
       headerLog last.along (maxHOf maxHraw cfg.vRes)
         (vLevelsOf maxHraw cfg.endHeight cfg.vRes),
       .error .zeroDivisionError)
    else
      match buildDb cfg (vLevelsOf maxHraw cfg.endHeight cfg.vRes)
          (hSeries (vLevelsOf maxHraw cfg.endHeight cfg.vRes) cfg.endHeight cfg.vRes)
          (quoOf cfg last.along) (fun _ => []) lines with
      | .error e =>
        (statCmds cfg,
         headerLog last.along (maxHOf maxHraw cfg.vRes)
             (vLevelsOf maxHraw cfg.endHeight cfg.vRes) ++
           slopeLog cfg (quoOf cfg last.along),
         .error e)
      | .ok db =>
        (okCmds cfg
           (hSeries (vLevelsOf maxHraw cfg.endHeight cfg.vRes) cfg.endHeight cfg.vRes)
           (processedLevels cfg (vLevelsOf maxHraw cfg.endHeight cfg.vRes) db),
         headerLog last.along (maxHOf maxHraw cfg.vRes)
             (vLevelsOf maxHraw cfg.endHeight cfg.vRes) ++
           slopeLog cfg (quoOf cfg last.along) ++
           tailLog cfg dsum
             (processedLevels cfg (vLevelsOf maxHraw cfg.endHeight cfg.vRes) db),
         .ok ())

section EnvelopeLemmas

variable {ι : Type}

theorem foldl_mergeStep_apply (fs : List (ι → Option ℚ)) (src : ι → Option ℚ) (c : ι) :
    (fs.foldl (fun s f => mergeStep f s) src) c =
      (fs.map (fun f => f c)).foldl (fun s o => mergeCell o s) (src c) := by
  induction fs generalizing src with
  | nil => rfl
  | cons f fs ih => exact ih (mergeStep f src)

theorem foldl_mergeCell_some (l : List (Option ℚ)) (tv : ℚ) :
    l.foldl (fun s o => mergeCell o s) (some tv) =
      some ((l.filterMap id).foldl min tv) := by
  induction l generalizing tv with
  | nil => rfl
  | cons o l ih =>
    cases o with
    | none =>
      simpa using ih tv
    | some v =>
      have hm : mergeCell (some v) (some tv) = some (min v tv) := rfl
      rw [List.foldl_cons, hm, ih (min v tv)]
      have hf : (some v :: l).filterMap id = v :: l.filterMap id := by simp
      rw [hf, List.foldl_cons, min_comm tv v]

theorem excavated_eq_foldl (t : ι → ℚ) (fs : List (ι → Option ℚ)) (c : ι) :
    excavated t fs c = (fs.filterMap (fun f => f c)).foldl min (t c) := by
  unfold excavated sweepGrids
  rw [foldl_mergeStep_apply, foldl_mergeCell_some]
  have : (fs.map (fun f => f c)).filterMap id = fs.filterMap (fun f => f c) := by
    rw [List.filterMap_map]
    rfl
  rw [this]

theorem foldl_min_le_init (l : List ℚ) (a : ℚ) : l.foldl min a ≤ a := by
  induction l generalizing a with
  | nil => exact le_refl a
  | cons x l ih => exact le_trans (ih (min a x)) (min_le_left a x)

theorem foldl_min_all_ge (l : List ℚ) (a : ℚ) (h : ∀ x ∈ l, a ≤ x) :
    l.foldl min a = a := by
  induction l generalizing a with
  | nil => rfl
  | cons x l ih =>
    have hx : min a x = a := min_eq_left (h x (List.mem_cons_self ..))
    rw [List.foldl_cons, hx]
    exact ih a (fun y hy => h y (List.mem_cons_of_mem _ hy))

theorem filterMap_gridOf (levels : List (Level ι)) (c : ι) :
    (levels.map gridOf).filterMap (fun f => f c) =
      (levels.filter (fun l => l.cover c)).map Level.elev := by
  induction levels with
  | nil => rfl
  | cons l ls ih =>
    by_cases hc : l.cover c
    · simp [gridOf, hc, ih]
    · simp [gridOf, hc, ih]

end EnvelopeLemmas

theorem levelUpLoop_char (cfg : Config) (vL : ℤ) (row : Row) (level : ℤ) :
    ∀ (l : List ℤ) (db : ℤ → List Entry),
      (∀ k ∈ l, k ∈ dbKeys vL) → l.Nodup →
      ∃ db', levelUpLoop cfg vL row level db l = .ok db' ∧
        ∀ j, db' j = db j ++
          (if j ∈ l ∧ bufW cfg level j ≤ cfg.chMaxWidth/2
           then [(row, bufW cfg level j)] else []) := by
  intro l
  induction l with
  | nil =>
    intro db _ _
    refine ⟨db, rfl, fun j => ?_⟩
    simp
  | cons k rest ih =>
    intro db hkeys hnd
    have hk : k ∈ dbKeys vL := hkeys k (List.mem_cons_self ..)
    have hkeys2 : ∀ k2 ∈ rest, k2 ∈ dbKeys vL :=
      fun k2 h => hkeys k2 (List.mem_cons_of_mem _ h)
    have hknr : k ∉ rest := (List.nodup_cons.mp hnd).1
    have hnd2 := (List.nodup_cons.mp hnd).2
    by_cases hbw : bufW cfg level k ≤ cfg.chMaxWidth/2
    · obtain ⟨db', hok, hchar⟩ :=
        ih (fun j => if j = k then db j ++ [(row, bufW cfg level k)] else db j) hkeys2 hnd2
      refine ⟨db', ?_, ?_⟩
      · simp only [levelUpLoop, if_pos hbw, dbAppend, if_pos hk]
        exact hok
      · intro j
        rw [hchar j]
        by_cases hj : j = k
        · subst hj
          simp [hknr, hbw]
        · have hmem : (j ∈ k :: rest) ↔ j ∈ rest := by
            simp [List.mem_cons, hj]
          simp [hj, hmem]
    · obtain ⟨db', hok, hchar⟩ := ih db hkeys2 hnd2
      refine ⟨db', ?_, ?_⟩
      · simp only [levelUpLoop, if_neg hbw]
        exact hok
      · intro j
        rw [hchar j]
        by_cases hj : j = k
        · subst hj
          simp [hbw]
        · have hmem : (j ∈ k :: rest) ↔ j ∈ rest := by
            simp [List.mem_cons, hj]
          simp [hmem]

/-- New-entry shape a successful processStation call adds at key j. -/
def newEntry (cfg : Config) (vL level : ℤ) (row : Row) (j : ℤ) : List Entry :=
  if j = level then [(row, cfg.chWidth/2)]
  else if level < j ∧ j < vL ∧ bufW cfg level j ≤ cfg.chMaxWidth/2
  then [(row, bufW cfg level j)] else []

theorem processStation_char (cfg : Config) (vL : ℤ) (hS : List ℚ) (quo : ℚ)
    (db : ℤ → List Entry) (row : Row) (db' : ℤ → List Entry)
    (hok : processStation cfg vL hS quo db row = .ok db') :
    (1 ≤ levelOf cfg (designElev cfg quo row.along) ∧
      levelOf cfg (designElev cfg quo row.along) < vL) ∧
    ∀ j, db' j = db j ++
      newEntry cfg vL (levelOf cfg (designElev cfg quo row.along)) row j := by
  set level := levelOf cfg (designElev cfg quo row.along) with hlevel
  unfold processStation at hok
  rw [← hlevel] at hok
  cases hg : pyListGet hS (level - 1) with
  | error e =>
    rw [hg] at hok
    exact absurd hok (by simp)
  | ok layer =>
    rw [hg] at hok
    by_cases hk : level ∈ dbKeys vL
    · simp only [dbAppend, if_pos hk] at hok
      have hrange : 1 ≤ level ∧ level < vL := mem_pyRange.mp hk
      have hkeys : ∀ k ∈ pyRange (level + 1) vL, k ∈ dbKeys vL := by
        intro k hkm
        have := mem_pyRange.mp hkm
        exact mem_pyRange.mpr ⟨by omega, this.2⟩
      obtain ⟨db2, hok2, hchar⟩ :=
        levelUpLoop_char cfg vL row level (pyRange (level + 1) vL)
          (fun j => if j = level then db j ++ [(row, cfg.chWidth/2)] else db j)
          hkeys (nodup_pyRange _ _)
      rw [hok2] at hok
      have hdb : db2 = db' := by
        cases hok
        rfl
      subst hdb
      refine ⟨hrange, fun j => ?_⟩
      rw [hchar j]
      unfold newEntry
      by_cases hj : j = level
      · subst hj
        have hnm : level ∉ pyRange (level + 1) vL := by
          intro hm
          have := mem_pyRange.mp hm
          omega
        simp [hnm]
      · have hmem : j ∈ pyRange (level + 1) vL ↔ level < j ∧ j < vL := by
          rw [mem_pyRange]
          omega
        by_cases hcond : level < j ∧ j < vL ∧ bufW cfg level j ≤ cfg.chMaxWidth/2
        · have : j ∈ pyRange (level + 1) vL ∧ bufW cfg level j ≤ cfg.chMaxWidth/2 :=
            ⟨hmem.mpr ⟨hcond.1, hcond.2.1⟩, hcond.2.2⟩
          simp [hj, this, hcond]
        · have : ¬(j ∈ pyRange (level + 1) vL ∧ bufW cfg level j ≤ cfg.chMaxWidth/2) := by
            rintro ⟨hm, hb⟩
            exact hcond ⟨(hmem.mp hm).1, (hmem.mp hm).2, hb⟩
          simp [hj, this, hcond]
    · simp only [dbAppend, if_neg hk] at hok
      exact absurd hok (by simp)

theorem processStation_ok (cfg : Config) (vL : ℤ) (quo : ℚ)
    (db : ℤ → List Entry) (row : Row)
    (h1 : 1 ≤ levelOf cfg (designElev cfg quo row.along))
    (h2 : levelOf cfg (designElev cfg quo row.along) < vL) :
    ∃ db', processStation cfg vL (hSeries vL cfg.endHeight cfg.vRes) quo db row = .ok db' := by
  set level := levelOf cfg (designElev cfg quo row.along) with hlevel
  have hlen : ((hSeries vL cfg.endHeight cfg.vRes).length : ℤ) = vL - 1 := by
    rw [hSeries, List.length_map, length_pyRange]
    omega
  have hget : ∃ v, pyListGet (hSeries vL cfg.endHeight cfg.vRes) (level - 1) = .ok v := by
    unfold pyListGet
    rw [dif_pos (by omega)]
    exact ⟨_, rfl⟩
  obtain ⟨v, hv⟩ := hget
  have hk : level ∈ dbKeys vL := mem_pyRange.mpr ⟨h1, h2⟩
  have hkeys : ∀ k ∈ pyRange (level + 1) vL, k ∈ dbKeys vL := by
    intro k hkm
    have := mem_pyRange.mp hkm
    exact mem_pyRange.mpr ⟨by omega, this.2⟩
  obtain ⟨db2, hok2, -⟩ :=
    levelUpLoop_char cfg vL row level (pyRange (level + 1) vL)
      (fun j => if j = level then db j ++ [(row, cfg.chWidth/2)] else db j)
      hkeys (nodup_pyRange _ _)
  refine ⟨db2, ?_⟩
  unfold processStation
  rw [← hlevel, hv]
  simp only [dbAppend, if_pos hk]
  exact hok2

theorem mem_processedLevels {cfg : Config} {vL : ℤ} {db : ℤ → List Entry} {n : ℤ}
    (h : n ∈ processedLevels cfg vL db) :
    (1 ≤ n ∧ n < min vL cfg.limitRunLayers) ∧ db n ≠ [] := by
  unfold processedLevels at h
  rw [List.mem_filter] at h
  refine ⟨mem_pyRange.mp h.1, ?_⟩
  simpa using h.2

theorem vInAscii_mem_okCmds {cfg : Config} {hS : List ℚ} {processed : List ℤ} {n : ℤ}
    (h : Cmd.vInAscii n ∈ okCmds cfg hS processed) : n ∈ processed := by
  unfold okCmds statCmds preCmds rasterCmds sweepCmds at h
  simp at h
  exact h

theorem headerLog_no_warning (length maxH : ℚ) (vL : ℤ) :
    (headerLog length maxH vL).all (fun e => !(isWarning e)) = true := by
  simp [headerLog, isWarning]

theorem slopeLog_no_warning (cfg : Config) (quo : ℚ) :
    (slopeLog cfg quo).all (fun e => !(isWarning e)) = true := by
  simp [slopeLog, isWarning]

theorem tailLog_no_warning (cfg : Config) (dsum : ℚ) (processed : List ℤ) :
    (tailLog cfg dsum processed).all (fun e => !(isWarning e)) = true := by
  unfold tailLog
  rw [List.all_append]
  refine (Bool.and_eq_true ..).mpr ⟨?_, by simp [isWarning]⟩
  refine List.all_eq_true.mpr (fun e he => ?_)
  rw [List.mem_map] at he
  obtain ⟨m, -, rfl⟩ := he
  rfl

/-- Sample configuration with unit vertical resolution and derived side
ratio 1; used to evaluate concrete runs. -/
def cfgA : Config :=
  { hRes := 10, vRes := 1, pointDist := 20, endHeight := 0, depth := 5,
    startHeight := 5, limitRunLayers := 2000, chWidth := 2, chMaxWidth := 12,
    sideRatioOpt := 3, reliefRes := 10 }

/-- Configuration whose start height lies 10 units below its end height,
sending the first station below the usable level range. -/
def cfgB : Config :=
  { hRes := 10, vRes := 1, pointDist := 20, endHeight := 100, depth := 7,
    startHeight := 90, limitRunLayers := 2000, chWidth := 10, chMaxWidth := 50,
    sideRatioOpt := 3, reliefRes := 10 }

/-- Configuration whose top width far exceeds the fixed 400-unit mask
diameter. -/
def cfgC : Config :=
  { hRes := 10, vRes := 1, pointDist := 20, endHeight := 0, depth := 5,
    startHeight := 5, limitRunLayers := 2000, chWidth := 2, chMaxWidth := 500,
    sideRatioOpt := 3, reliefRes := 10 }

/-- Configuration with a small level cap, forcing truncation. -/
def cfgD : Config :=
  { hRes := 10, vRes := 1, pointDist := 20, endHeight := 0, depth := 5,
    startHeight := 10, limitRunLayers := 3, chWidth := 2, chMaxWidth := 40,
    sideRatioOpt := 3, reliefRes := 10 }

/-- A station row at the path start. -/
def rowA : Row := ⟨0, 0, 1, 0⟩

/-- Station rows of a 10-unit path sampled at its two ends. -/
def linesD : List Row := [⟨0, 0, 1, 0⟩, ⟨10, 0, 2, 10⟩]

/-- Own-level formula as the specification claim states it: the rounded
level clamped into the usable range (written from the claim for
comparison with levelOf). -/
def specOwnLevel (ds endHeight vRes : ℚ) (vLevels : ℤ) : ℤ :=
  max 1 (min (pyRound ((ds - endHeight)/vRes) + 1) (vLevels - 1))

/-- Claim C2, amended: the level that receives a station's bottom-width
entry is ownLevel = round((ds - endHeight)/vRes + 1), with no clamping;
when that value lies in the usable range 1..vLevels-1 the station loop
succeeds and appends (station, bottomWidth/2) at exactly that level. -/
theorem c2_theorem (cfg : Config) (vL : ℤ) (quo : ℚ) (db : ℤ → List Entry) (row : Row)
    (h1 : 1 ≤ levelOf cfg (designElev cfg quo row.along))
    (h2 : levelOf cfg (designElev cfg quo row.along) < vL) :
    ∃ db', processStation cfg vL (hSeries vL cfg.endHeight cfg.vRes) quo db row = .ok db' ∧
      db' (levelOf cfg (designElev cfg quo row.along)) =
        db (levelOf cfg (designElev cfg quo row.along)) ++ [(row, cfg.chWidth/2)] := by
  obtain ⟨db', hok⟩ := processStation_ok cfg vL quo db row h1 h2
  obtain ⟨-, hchar⟩ := processStation_char cfg vL _ quo db row db' hok
  refine ⟨db', hok, ?_⟩
  rw [hchar]
  unfold newEntry
  simp

/-- Witness for c2_theorem: under cfgA with zero slope, the station at
distance 0 has design elevation 5 and own level 6, inside 1..7. -/
theorem c2_witness :
    (1 ≤ levelOf cfgA (designElev cfgA 0 rowA.along) ∧
      levelOf cfgA (designElev cfgA 0 rowA.along) < 8) ∧
    (∃ db', processStation cfgA 8 (hSeries 8 cfgA.endHeight cfgA.vRes) 0
        (fun _ => []) rowA = .ok db' ∧
      db' (levelOf cfgA (designElev cfgA 0 rowA.along)) =
        (fun _ => ([] : List Entry)) (levelOf cfgA (designElev cfgA 0 rowA.along)) ++
          [(rowA, cfgA.chWidth/2)]) :=
  ⟨⟨by with_unfolding_all decide, by with_unfolding_all decide⟩,
    c2_theorem cfgA 8 0 (fun _ => []) rowA
      (by with_unfolding_all decide) (by with_unfolding_all decide)⟩

/-- Counterexample to claim C2 as stated: under cfgB (design elevation 90,
endHeight 100, vRes 1, vLevels 12) the clamped formula of the claim gives
ownLevel 1, but the code computes level -9 and the station loop raises a
KeyError instead of storing the entry at level 1. -/
theorem c2_counterexample :
    processStation cfgB 12 (hSeries 12 100 1) 0 (fun _ => []) rowA =
      .error .keyError ∧
    levelOf cfgB (designElev cfgB 0 rowA.along) = -9 ∧
    specOwnLevel (designElev cfgB 0 rowA.along) 100 1 12 = 1 := by
  refine ⟨by with_unfolding_all rfl, ?_, ?_⟩
  · with_unfolding_all decide
  · with_unfolding_all decide

/-- Claim C3, amended: the code first adds vRes to the corridor maximum
(line 286), so vLevels = round((maxH + vRes - endHeight)/vRes) + 2; when
maxH - endHeight = z*vRes exactly this is z + 3, and the Scenario-2
inputs maxH=120, endHeight=90, vRes=1 give vLevels = 33 with usable
ordinals 1..32 (not 32 with ordinals 1..31). -/
theorem c3_theorem (P e r : ℚ) (z : ℤ) (hr : 0 < r) (hz : P - e = (z : ℚ) * r) :
    vLevelsOf P e r = z + 3 ∧ vLevelsOf 120 90 1 = 33 ∧
      dbKeys (vLevelsOf 120 90 1) = pyRange 1 33 := by
  refine ⟨?_, by with_unfolding_all rfl, by with_unfolding_all rfl⟩
  unfold vLevelsOf maxHOf
  have h1 : (P + r - e)/r = ((z + 1 : ℤ) : ℚ) := by
    push_cast
    field_simp
    linear_combination hz
  rw [h1, pyRound_intCast]
  omega

/-- Witness for c3_theorem at peak 6, endHeight 1, vRes 1 (z = 5). -/
theorem c3_witness :
    (0 < (1 : ℚ)) ∧ ((6 : ℚ) - 1 = ((5 : ℤ) : ℚ) * 1) ∧
      (vLevelsOf 6 1 1 = 5 + 3 ∧ vLevelsOf 120 90 1 = 33 ∧
        dbKeys (vLevelsOf 120 90 1) = pyRange 1 33) :=
  ⟨by norm_num, by norm_num, c3_theorem 6 1 1 5 (by norm_num) (by norm_num)⟩

/-- Counterexample to claim C3 as stated: with corridor peak 120,
endHeight 90 and vRes 1 the code yields 33 levels, not the claimed
round((120-90)/1) + 2 = 32. -/
theorem c3_counterexample :
    vLevelsOf 120 90 1 ≠ pyRound ((120 - 90)/1) + 2 := by
  with_unfolding_all decide

/-- Claim C8, amended: the elevation stored for level n is
round(endHeight + (n-1)*vRes) (line 302), not the exact value; for
integer endHeight and integer vRes >= 1 it equals endHeight + (n-1)*vRes
exactly and the sequence is strictly increasing in n. -/
theorem c8_theorem (e r : ℤ) (hr : 1 ≤ r) (n : ℤ) :
    levelElev (e : ℚ) (r : ℚ) n = ((e + (n - 1) * r : ℤ) : ℚ) ∧
      levelElev (e : ℚ) (r : ℚ) n < levelElev (e : ℚ) (r : ℚ) (n + 1) := by
  have key : ∀ m : ℤ, levelElev (e : ℚ) (r : ℚ) m = ((e + (m - 1) * r : ℤ) : ℚ) := by
    intro m
    unfold levelElev
    have h1 : ((m : ℚ) - 1) * (r : ℚ) + (e : ℚ) = ((e + (m - 1) * r : ℤ) : ℚ) := by
      push_cast
      ring
    rw [h1, pyRound_intCast]
  refine ⟨key n, ?_⟩
  rw [key n, key (n + 1)]
  have h2 : e + (n - 1) * r < e + (n + 1 - 1) * r := by nlinarith
  exact_mod_cast h2

/-- Witness for c8_theorem at endHeight 90, vRes 1, n = 3. -/
theorem c8_witness :
    (1 ≤ (1 : ℤ)) ∧
      (levelElev ((90 : ℤ) : ℚ) ((1 : ℤ) : ℚ) 3 = ((90 + (3 - 1) * 1 : ℤ) : ℚ) ∧
        levelElev ((90 : ℤ) : ℚ) ((1 : ℤ) : ℚ) 3 <
          levelElev ((90 : ℤ) : ℚ) ((1 : ℤ) : ℚ) (3 + 1)) :=
  ⟨by norm_num, c8_theorem 90 1 (by norm_num) 3⟩

/-- Counterexample to claim C8 as stated: for endHeight 1/4 the stored
level-1 elevation is round(1/4) = 0, not 1/4; and for endHeight 0 with
vRes = 2/5 the stored elevations of levels 1 and 2 are both 0, so the
sequence is not strictly increasing. -/
theorem c8_counterexample :
    levelElev (1/4) 1 1 ≠ 1/4 ∧
      ¬ levelElev 0 (2/5) 1 < levelElev 0 (2/5) 2 := by
  with_unfolding_all decide

/-- Claim C4: for a processed station (with a valid configuration:
positive depth, bottomWidth at most maxWidth, nonnegative vRes), the
entry recorded at its own level is bottomWidth/2, every entry the station
adds sits at or above its own level with half-width at most maxWidth/2,
and its half-widths are monotone non-decreasing in level ordinal. -/
theorem c4_theorem (cfg : Config) (vL : ℤ) (hS : List ℚ) (quo : ℚ)
    (db db' : ℤ → List Entry) (row : Row)
    (hdepth : 0 < cfg.depth) (hwid : cfg.chWidth ≤ cfg.chMaxWidth)
    (hres : 0 ≤ cfg.vRes)
    (hok : processStation cfg vL hS quo db row = .ok db') :
    (db' (levelOf cfg (designElev cfg quo row.along)) =
       db (levelOf cfg (designElev cfg quo row.along)) ++ [(row, cfg.chWidth/2)]) ∧
    (∀ j w, db' j = db j ++ [(row, w)] →
       levelOf cfg (designElev cfg quo row.along) ≤ j ∧ w ≤ cfg.chMaxWidth/2) ∧
    (∀ j1 j2 w1 w2, db' j1 = db j1 ++ [(row, w1)] → db' j2 = db j2 ++ [(row, w2)] →
       j1 ≤ j2 → w1 ≤ w2) := by
  obtain ⟨⟨hl1, hl2⟩, hchar⟩ := processStation_char cfg vL hS quo db row db' hok
  set level := levelOf cfg (designElev cfg quo row.along) with hlev
  have hside : 0 ≤ sideRatio cfg := by
    unfold sideRatio
    have h1 : 0 ≤ (cfg.chMaxWidth - cfg.chWidth)/2 := by linarith
    exact div_nonneg h1 (le_of_lt hdepth)
  have hbuflev : bufW cfg level level = cfg.chWidth/2 := by
    unfold bufW
    ring
  have hbufmono : ∀ j1 j2 : ℤ, j1 ≤ j2 → bufW cfg level j1 ≤ bufW cfg level j2 := by
    intro j1 j2 hj
    unfold bufW
    have hc : ((j1 : ℚ)) ≤ (j2 : ℚ) := by exact_mod_cast hj
    have h0 : 0 ≤ ((j2 : ℚ) - (j1 : ℚ)) * (cfg.vRes * sideRatio cfg) :=
      mul_nonneg (by linarith) (mul_nonneg hres hside)
    nlinarith [h0]
  have hentry : ∀ j w, db' j = db j ++ [(row, w)] →
      level ≤ j ∧ w = bufW cfg level j ∧ w ≤ cfg.chMaxWidth/2 := by
    intro j w hjw
    have h2 := hchar j
    rw [hjw] at h2
    have h3 := List.append_cancel_left h2
    unfold newEntry at h3
    by_cases hj : j = level
    · rw [if_pos hj] at h3
      have hw : w = cfg.chWidth/2 := by
        simpa using h3
      subst hj
      refine ⟨le_refl _, ?_, ?_⟩
      · rw [hw, hbuflev]
      · rw [hw]
        linarith
    · rw [if_neg hj] at h3
      by_cases hcond : level < j ∧ j < vL ∧ bufW cfg level j ≤ cfg.chMaxWidth/2
      · rw [if_pos hcond] at h3
        have hw : w = bufW cfg level j := by
          simpa using h3
        exact ⟨le_of_lt hcond.1, hw, hw ▸ hcond.2.2⟩
      · rw [if_neg hcond] at h3
        simp at h3
  refine ⟨?_, ?_, ?_⟩
  · rw [hchar level]
    unfold newEntry
    simp
  · intro j w h
    obtain ⟨ha, -, hc⟩ := hentry j w h
    exact ⟨ha, hc⟩
  · intro j1 j2 w1 w2 hw1 hw2 hj
    obtain ⟨-, he1, -⟩ := hentry j1 w1 hw1
    obtain ⟨-, he2, -⟩ := hentry j2 w2 hw2
    rw [he1, he2]
    exact hbufmono j1 j2 hj

/-- The db function produced by a successful processStation run on cfgA,
used to witness c4_theorem on concrete data. -/
def dbC4 : ℤ → List Entry :=
  match processStation cfgA 8 (hSeries 8 cfgA.endHeight cfgA.vRes) 0 (fun _ => []) rowA with
  | .ok d => d
  | .error _ => fun _ => []

/-- Witness for c4_theorem: the concrete station run of c2_witness
satisfies all three invariants. -/
theorem c4_witness :
    (0 < cfgA.depth) ∧ (cfgA.chWidth ≤ cfgA.chMaxWidth) ∧ (0 ≤ cfgA.vRes) ∧
    (processStation cfgA 8 (hSeries 8 cfgA.endHeight cfgA.vRes) 0
        (fun _ => []) rowA = .ok dbC4) ∧
    ((dbC4 (levelOf cfgA (designElev cfgA 0 rowA.along)) =
        (fun _ => ([] : List Entry)) (levelOf cfgA (designElev cfgA 0 rowA.along)) ++
          [(rowA, cfgA.chWidth/2)]) ∧
      (∀ j w, dbC4 j = (fun _ => ([] : List Entry)) j ++ [(rowA, w)] →
         levelOf cfgA (designElev cfgA 0 rowA.along) ≤ j ∧ w ≤ cfgA.chMaxWidth/2) ∧
      (∀ j1 j2 w1 w2, dbC4 j1 = (fun _ => ([] : List Entry)) j1 ++ [(rowA, w1)] →
         dbC4 j2 = (fun _ => ([] : List Entry)) j2 ++ [(rowA, w2)] →
         j1 ≤ j2 → w1 ≤ w2)) :=
  ⟨by with_unfolding_all decide, by with_unfolding_all decide,
    by with_unfolding_all decide, by with_unfolding_all rfl,
    c4_theorem cfgA 8 (hSeries 8 cfgA.endHeight cfgA.vRes) 0 (fun _ => []) dbC4 rowA
      (by with_unfolding_all decide) (by with_unfolding_all decide)
      (by with_unfolding_all decide) (by with_unfolding_all rfl)⟩

theorem levelUpLoop_sopt (cfg : Config) (x : ℚ) (vL : ℤ) (row : Row) (level : ℤ) :
    ∀ (l : List ℤ) (db : ℤ → List Entry),
      levelUpLoop { cfg with sideRatioOpt := x } vL row level db l =
        levelUpLoop cfg vL row level db l := by
  intro l
  induction l with
  | nil => intro db; rfl
  | cons k rest ih =>
    intro db
    simp only [levelUpLoop]
    have hb : bufW { cfg with sideRatioOpt := x } level k = bufW cfg level k := rfl
    have hm : ({ cfg with sideRatioOpt := x } : Config).chMaxWidth = cfg.chMaxWidth := rfl
    rw [hb, hm]
    by_cases hc : bufW cfg level k ≤ cfg.chMaxWidth/2
    · rw [if_pos hc, if_pos hc]
      cases dbAppend vL db k (row, bufW cfg level k) with
      | error e => rfl
      | ok db2 => exact ih db2
    · rw [if_neg hc, if_neg hc]
      exact ih db

theorem processStation_sopt (cfg : Config) (x : ℚ) (vL : ℤ) (hS : List ℚ) (quo : ℚ)
    (db : ℤ → List Entry) (row : Row) :
    processStation { cfg with sideRatioOpt := x } vL hS quo db row =
      processStation cfg vL hS quo db row := by
  unfold processStation
  have h1 : levelOf { cfg with sideRatioOpt := x }
      (designElev { cfg with sideRatioOpt := x } quo row.along) =
      levelOf cfg (designElev cfg quo row.along) := rfl
  have h2 : ({ cfg with sideRatioOpt := x } : Config).chWidth = cfg.chWidth := rfl
  rw [h1, h2]
  cases pyListGet hS (levelOf cfg (designElev cfg quo row.along) - 1) with
  | error e => rfl
  | ok layer =>
    cases dbAppend vL db (levelOf cfg (designElev cfg quo row.along))
        (row, cfg.chWidth/2) with
    | error e => rfl
    | ok db1 => exact levelUpLoop_sopt cfg x vL row _ _ db1

theorem buildDb_sopt (cfg : Config) (x : ℚ) (vL : ℤ) (hS : List ℚ) (quo : ℚ) :
    ∀ (rows : List Row) (db : ℤ → List Entry),
      buildDb { cfg with sideRatioOpt := x } vL hS quo db rows =
        buildDb cfg vL hS quo db rows := by
  intro rows
  induction rows with
  | nil => intro db; rfl
  | cons row rest ih =>
    intro db
    simp only [buildDb]
    rw [processStation_sopt]
    cases processStation cfg vL hS quo db row with
    | error e => rfl
    | ok db2 => exact ih db2

theorem runMain_sopt (cfg : Config) (x : ℚ) (lines : List Row) (maxHraw dsum : ℚ) :
    runMain { cfg with sideRatioOpt := x } lines maxHraw dsum =
      runMain cfg lines maxHraw dsum := by
  cases hL : lines.getLast? with
  | none => simp only [runMain, hL]
  | some last =>
    simp only [runMain, hL]
    by_cases h0 : last.along = 0
    · rw [if_pos h0, if_pos h0]
      rfl
    · rw [if_neg h0, if_neg h0, buildDb_sopt]
      rfl

/-- Scenario-1 configuration of the specification: bottomWidth 10,
maxWidth 50, depth 7, vRes 1, path from 100 down to 90 over length 100. -/
def cfg1Scenario : Config :=
  { hRes := 10, vRes := 1, pointDist := 20, endHeight := 90, depth := 7,
    startHeight := 100, limitRunLayers := 2000, chWidth := 10, chMaxWidth := 50,
    sideRatioOpt := 3, reliefRes := 10 }

/-- Claim C5: the supplied side-ratio option influences nothing - two runs
differing only in sideRatioOpt produce identical traces, logs and
results - and the derived ratio on the Scenario-1 inputs is 20/7, with
own-level half-width 5 and half-width 5 + 2*1*(20/7) = 75/7 two levels
above the own level. -/
theorem c5_theorem :
    (∀ (cfg : Config) (x : ℚ) (lines : List Row) (maxHraw dsum : ℚ),
       runMain { cfg with sideRatioOpt := x } lines maxHraw dsum =
         runMain cfg lines maxHraw dsum) ∧
    sideRatio cfg1Scenario = 20/7 ∧
    cfg1Scenario.chWidth/2 = 5 ∧
    bufW cfg1Scenario 5 7 = 75/7 ∧
    designElev cfg1Scenario (quoOf cfg1Scenario 100) 0 = 100 := by
  refine ⟨?_, ?_, ?_, ?_, ?_⟩
  · intro cfg x lines maxHraw dsum
    exact runMain_sopt cfg x lines maxHraw dsum
  · with_unfolding_all decide
  · with_unfolding_all decide
  · with_unfolding_all decide
  · with_unfolding_all decide

theorem envelope_min_first {ι : Type} (t : ι → ℚ) (c : ι) :
    ∀ (levels : List (Level ι)), (levels.map Level.elev).Pairwise (· ≤ ·) →
      ((levels.filter (fun l => l.cover c)).map Level.elev).foldl min (t c) =
        (match levels.find? (fun l => l.cover c) with
         | none => t c
         | some l => min (t c) l.elev) := by
  intro levels
  induction levels with
  | nil => intro _; rfl
  | cons l ls ih =>
    intro hmono
    rw [List.map_cons, List.pairwise_cons] at hmono
    obtain ⟨hle, hmono2⟩ := hmono
    by_cases hc : l.cover c
    · rw [List.filter_cons_of_pos (by simpa using hc),
        List.find?_cons_of_pos _ (by simpa using hc)]
      rw [List.map_cons, List.foldl_cons]
      apply foldl_min_all_ge
      intro y hy
      rw [List.mem_map] at hy
      obtain ⟨l2, hl2, rfl⟩ := hy
      have hmem : l2.elev ∈ ls.map Level.elev :=
        List.mem_map_of_mem _ (List.mem_of_mem_filter hl2)
      exact le_trans (min_le_right _ _) (hle _ hmem)
    · rw [List.filter_cons_of_neg (by simpa using hc),
        List.find?_cons_of_neg _ (by simpa using hc)]
      exact ih hmono2

/-- Claim C1, amended: the sweep keeps the terrain as an upper bound.
ExcavatedSurface[cell] <= T[cell] always holds; and with level elevations
non-decreasing in ordinal, ExcavatedSurface[cell] equals
min(T[cell], elevation of the lowest-ordinal covering level), or T[cell]
when no level covers the cell - not the covering level's elevation
outright, which the sweep clamps by the terrain. -/
theorem c1_theorem {ι : Type} (t : ι → ℚ) (levels : List (Level ι)) (c : ι)
    (hmono : (levels.map Level.elev).Pairwise (· ≤ ·)) :
    excavated t (levels.map gridOf) c ≤ t c ∧
      excavated t (levels.map gridOf) c =
        (match levels.find? (fun l => l.cover c) with
         | none => t c
         | some l => min (t c) l.elev) := by
  constructor
  · rw [excavated_eq_foldl]
    exact foldl_min_le_init _ _
  · rw [excavated_eq_foldl, filterMap_gridOf]
    exact envelope_min_first t c levels hmono

/-- Two stacked levels with elevations 3 and 10, both covering the single
cell of a one-cell grid. -/
def levelsC1 : List (Level (Fin 1)) := [⟨3, fun _ => true⟩, ⟨10, fun _ => true⟩]

/-- Witness for c1_theorem: on the one-cell grid with terrain 5 and
covering levels at elevations 3 and 10, the sweep returns min(5, 3) = 3. -/
theorem c1_witness :
    ((levelsC1.map Level.elev).Pairwise (· ≤ ·)) ∧
      (excavated (fun _ => (5 : ℚ)) (levelsC1.map gridOf) 0 ≤ (fun _ : Fin 1 => (5 : ℚ)) 0 ∧
        excavated (fun _ => (5 : ℚ)) (levelsC1.map gridOf) 0 =
          (match levelsC1.find? (fun l => l.cover 0) with
           | none => (fun _ : Fin 1 => (5 : ℚ)) 0
           | some l => min ((fun _ : Fin 1 => (5 : ℚ)) 0) l.elev)) := by
  have hp : (levelsC1.map Level.elev).Pairwise (· ≤ ·) := by
    unfold levelsC1
    simp [List.pairwise_cons]
    norm_num
  exact ⟨hp, c1_theorem (fun _ => (5 : ℚ)) levelsC1 0 hp⟩

/-- A single level of elevation 10 covering the one-cell grid. -/
def levelsC1x : List (Level (Fin 1)) := [⟨10, fun _ => true⟩]

/-- Counterexample to claim C1 as stated: with terrain 5 and one covering
level of elevation 10, the sweep produces 5 (the terrain), while the
claimed value - the elevation of the lowest covering level - is 10. -/
theorem c1_counterexample :
    excavated (fun _ => (5 : ℚ)) (levelsC1x.map gridOf) 0 = 5 ∧
      claimSurface (fun _ => (5 : ℚ)) levelsC1x 0 = 10 ∧
      excavated (fun _ => (5 : ℚ)) (levelsC1x.map gridOf) 0 ≠
        claimSurface (fun _ => (5 : ℚ)) levelsC1x 0 := by
  with_unfolding_all decide

/-- Claim C10, amended: all excavation is confined to the fixed 200-unit
path buffer (a literal in the source, independent of maxWidth): beyond it
the excavated surface equals the terrain; the difference grid, however,
is no-data there (it is computed under the same 200-unit mask), not 0. -/
theorem c10_theorem {ι : Type} (cfg : Config) (db : ℤ → List Entry) (hS : List ℚ)
    (vL : ℤ) (pathDist : ι → ℚ) (pos : ι → ℚ × ℚ) (t : ι → ℚ) (c : ι)
    (hfar : 200 < pathDist c) :
    excavatedFull cfg db hS vL pathDist pos t c = t c ∧
      diffGrid pathDist t (excavatedFull cfg db hS vL pathDist pos t) c = none := by
  have hnone : (levelGrids cfg db hS vL pathDist pos).filterMap (fun f => f c) = [] := by
    rw [List.filterMap_eq_nil_iff]
    intro f hf
    rw [levelGrids, List.mem_map] at hf
    obtain ⟨n, -, rfl⟩ := hf
    unfold footGrid
    rw [if_neg]
    rintro ⟨h1, -⟩
    linarith
  have hval : excavatedFull cfg db hS vL pathDist pos t c = t c := by
    unfold excavatedFull
    rw [excavated_eq_foldl, hnone]
    rfl
  refine ⟨hval, ?_⟩
  unfold diffGrid
  rw [if_neg (by linarith)]

/-- Witness for c10_theorem: a one-cell grid 300 units from the path. -/
theorem c10_witness :
    ((200 : ℚ) < (fun _ : Fin 1 => (300 : ℚ)) 0) ∧
      (excavatedFull cfgC (fun _ => []) [] 2 (fun _ => 300) (fun _ => (0, 0))
          (fun _ => 7) 0 = (fun _ : Fin 1 => (7 : ℚ)) 0 ∧
        diffGrid (fun _ => (300 : ℚ)) (fun _ => 7)
          (excavatedFull cfgC (fun _ => []) [] 2 (fun _ => 300) (fun _ => (0, 0))
            (fun _ => 7)) 0 = none) :=
  ⟨by norm_num,
    c10_theorem cfgC (fun _ => []) [] 2 (fun _ => 300) (fun _ => (0, 0))
      (fun _ => 7) 0 (by norm_num)⟩

/-- Counterexample to claim C10 as stated: at a cell 300 units from the
path (with maxWidth/2 = 250 > 200), the difference grid is none (masked
out), not 0, even though the excavated surface does equal the terrain. -/
theorem c10_counterexample :
    diffGrid (fun _ : Fin 1 => (300 : ℚ)) (fun _ => 7)
        (excavatedFull cfgC (fun _ => []) [] 2 (fun _ => 300) (fun _ => (0, 0))
          (fun _ => 7)) 0 = none ∧
      (none : Option ℚ) ≠ some 0 ∧
      excavatedFull cfgC (fun _ => []) [] 2 (fun _ => 300) (fun _ => (0, 0))
        (fun _ => 7) 0 = 7 ∧
      200 < cfgC.chMaxWidth/2 := by
  with_unfolding_all decide

/-- Claim C6, amended: truncation is silent. The per-level loops only
visit ordinals n with 1 <= n < min(vLevels, limitRunLayers), and no run
ever emits a warning message: main has no truncation (or any other)
warning call. -/
theorem c6_theorem (cfg : Config) (lines : List Row) (maxHraw dsum : ℚ) :
    ((runMain cfg lines maxHraw dsum).2.1.all (fun e => !(isWarning e)) = true) ∧
    (∀ n : ℤ, Cmd.vInAscii n ∈ (runMain cfg lines maxHraw dsum).1 →
       1 ≤ n ∧ n < min (vLevelsOf maxHraw cfg.endHeight cfg.vRes) cfg.limitRunLayers) := by
  cases hL : lines.getLast? with
  | none =>
    constructor
    · simp [runMain, hL]
    · intro n hn
      simp [runMain, hL, preCmds] at hn
  | some last =>
    by_cases h0 : last.along = 0
    · constructor
      · simp only [runMain, hL, if_pos h0]
        exact headerLog_no_warning _ _ _
      · intro n hn
        simp only [runMain, hL, if_pos h0] at hn
        unfold statCmds preCmds at hn
        simp at hn
    · cases hDb : buildDb cfg (vLevelsOf maxHraw cfg.endHeight cfg.vRes)
          (hSeries (vLevelsOf maxHraw cfg.endHeight cfg.vRes) cfg.endHeight cfg.vRes)
          (quoOf cfg last.along) (fun _ => []) lines with
      | error e =>
        constructor
        · simp only [runMain, hL, if_neg h0, hDb]
          rw [List.all_append]
          simp [headerLog_no_warning, slopeLog_no_warning]
        · intro n hn
          simp only [runMain, hL, if_neg h0, hDb] at hn
          unfold statCmds preCmds at hn
          simp at hn
      | ok db =>
        constructor
        · simp only [runMain, hL, if_neg h0, hDb]
          rw [List.all_append, List.all_append]
          simp [headerLog_no_warning, slopeLog_no_warning, tailLog_no_warning]
        · intro n hn
          simp only [runMain, hL, if_neg h0, hDb] at hn
          exact (mem_processedLevels (vInAscii_mem_okCmds hn)).1

/-- Witness for c6_theorem on the truncated cfgD run: the log of the run
holds no warning, and the processed level 1 is below the cap. -/
theorem c6_witness :
    ((runMain cfgD linesD 10 0).2.1.all (fun e => !(isWarning e)) = true) ∧
      (1 ≤ (1 : ℤ) ∧
        (1 : ℤ) < min (vLevelsOf 10 cfgD.endHeight cfgD.vRes) cfgD.limitRunLayers) :=
  ⟨(c6_theorem cfgD linesD 10 0).1,
    (c6_theorem cfgD linesD 10 0).2 1 (by with_unfolding_all decide)⟩

/-- The db built by the station loop of the cfgD run (vLevels 13,
quo -1), read back from buildDb. -/
def dbD : ℤ → List Entry :=
  match buildDb cfgD 13 (hSeries 13 0 1) (-1) (fun _ => []) linesD with
  | .ok d => d
  | .error _ => fun _ => []

/-- Counterexample to claim C6 as stated: under cfgD the required level
count 12 exceeds the cap 3 and processing is truncated (level 1 is
rasterized, level 11 - although its station list is non-empty - is not),
yet the emitted log contains no warning of any kind. -/
theorem c6_counterexample :
    vLevelsOf 10 cfgD.endHeight cfgD.vRes - 1 > cfgD.limitRunLayers ∧
      ((runMain cfgD linesD 10 0).2.1.all (fun e => !(isWarning e)) = true) ∧
      Cmd.vInAscii 1 ∈ (runMain cfgD linesD 10 0).1 ∧
      Cmd.vInAscii 11 ∉ (runMain cfgD linesD 10 0).1 ∧
      dbD 11 ≠ [] := by
  refine ⟨?_, ?_, ?_, ?_, ?_⟩ <;> with_unfolding_all decide

/-- Claim C7, amended: a degenerate path of length zero does not raise a
ConfigurationError before any grid work; the run aborts with an uncaught
ZeroDivisionError at the slope computation, and by then the corridor
statistics grid work (v.buffer, r.mask, r.mapcalc, r.univar) has already
run. -/
theorem c7_theorem (cfg : Config) (lines : List Row) (maxHraw dsum : ℚ) (last : Row)
    (hlast : lines.getLast? = some last) (h0 : last.along = 0) :
    (runMain cfg lines maxHraw dsum).2.2 = .error .zeroDivisionError ∧
      Cmd.rUnivarMax ∈ (runMain cfg lines maxHraw dsum).1 ∧
      Cmd.rMapcalcMax ∈ (runMain cfg lines maxHraw dsum).1 := by
  refine ⟨?_, ?_, ?_⟩
  · simp [runMain, hlast, if_pos h0]
  · simp [runMain, hlast, if_pos h0, statCmds, preCmds]
  · simp [runMain, hlast, if_pos h0, statCmds, preCmds]

/-- Witness for c7_theorem: a single station at distance 0. -/
theorem c7_witness :
    ([rowA].getLast? = some rowA) ∧ (rowA.along = 0) ∧
      ((runMain cfgA [rowA] 10 0).2.2 = .error .zeroDivisionError ∧
        Cmd.rUnivarMax ∈ (runMain cfgA [rowA] 10 0).1 ∧
        Cmd.rMapcalcMax ∈ (runMain cfgA [rowA] 10 0).1) :=
  ⟨rfl, rfl, c7_theorem cfgA [rowA] 10 0 rowA rfl rfl⟩

/-- Counterexample to claim C7 as stated: on a zero-length path the run
fails with ZeroDivisionError - not ConfigurationError - and the corridor
grid commands have already been issued when it does. -/
theorem c7_counterexample :
    (runMain cfgA [rowA] 10 0).2.2 = .error .zeroDivisionError ∧
      PyErr.zeroDivisionError ≠ PyErr.configurationError ∧
      Cmd.rUnivarMax ∈ (runMain cfgA [rowA] 10 0).1 ∧
      Cmd.rMapcalcMax ∈ (runMain cfgA [rowA] 10 0).1 := by
  refine ⟨by with_unfolding_all rfl, by decide, ?_, ?_⟩ <;> with_unfolding_all decide

/-- Claim C9, amended: with zero sampled stations the pipeline does not
complete with an unmodified surface; it aborts with an IndexError at the
path-length extraction (lines[-1]), before emitting any message and
before any excavation command. -/
theorem c9_theorem (cfg : Config) (maxHraw dsum : ℚ) :
    (runMain cfg [] maxHraw dsum).2.2 = .error .indexError ∧
      (runMain cfg [] maxHraw dsum).1 = preCmds ∧
      (runMain cfg [] maxHraw dsum).2.1 = [] :=
  ⟨rfl, rfl, rfl⟩

/-- Counterexample to claim C9 as stated: the empty-station run errors
out (no normal completion) and never issues the excavated-surface
command. -/
theorem c9_counterexample :
    (runMain cfgA [] 10 0).2.2 = .error .indexError ∧
      (Except.error PyErr.indexError : Except PyErr Unit) ≠ .ok () ∧
      Cmd.rMapcalcDtm ∉ (runMain cfgA [] 10 0).1 ∧
      Cmd.rMapcalcSource ∉ (runMain cfgA [] 10 0).1 := by
  refine ⟨by with_unfolding_all rfl, ?_, ?_, ?_⟩
  · intro h
    exact Except.noConfusion h
  · with_unfolding_all decide
  · with_unfolding_all decide

end RTrench
